import Mathlib

/-!
Shallow embedding of the `vector` repository: a mutable 3-component vector
class (`src/unnamed/part_000`, the `Vector` entity) and two copies of a
functional facade (`src/src/vectorFunctions.ts` and `src/unnamed/part_001`).

JavaScript numbers are modelled exactly: a rational for every finite value,
plus the two infinities and NaN (`JsNum`).  Transcendental library functions
(`Math.hypot`, `Math.acos`, `Math.cos`, `Math.sin`, `Math.random`, `Math.PI`)
are abstract parameters of the definitions that call them; theorems assume
only properties that the real functions satisfy at the relevant inputs, and
concrete computable instantiations (`hypotModel`, `acosModel`, `cosModel`,
`sinModel`) are used to evaluate closed witnesses.
-/

/-- Model of a JavaScript number: an exact rational for every finite value,
the two infinities, and NaN.  Negative zero is identified with zero:
JavaScript's `===`, `==`, `<`, `>`, `isFinite`, `Math.min`/`Math.max` and the
`|| 0` coercion do not distinguish `-0` from `0` on the code paths modelled
here. -/
inductive JsNum where
  | fin : ℚ → JsNum
  | posInf : JsNum
  | negInf : JsNum
  | nan : JsNum
deriving DecidableEq

namespace JsNum

/-- JavaScript `isFinite` on a number. -/
def isFinite : JsNum → Bool
  | fin _ => true
  | _ => false

/-- JavaScript unary minus on a number. -/
def neg : JsNum → JsNum
  | fin q => fin (-q)
  | posInf => negInf
  | negInf => posInf
  | nan => nan

/-- JavaScript `+` on numbers (IEEE-754 addition, exact on the rational
carrier). -/
def add : JsNum → JsNum → JsNum
  | nan, _ => nan
  | _, nan => nan
  | fin a, fin b => fin (a + b)
  | posInf, negInf => nan
  | negInf, posInf => nan
  | posInf, _ => posInf
  | _, posInf => posInf
  | negInf, _ => negInf
  | _, negInf => negInf

/-- JavaScript `-` on numbers, as addition of the negation. -/
def sub (a b : JsNum) : JsNum := a.add b.neg

/-- JavaScript `*` on numbers (IEEE-754 multiplication, exact on the rational
carrier). -/
def mul : JsNum → JsNum → JsNum
  | nan, _ => nan
  | _, nan => nan
  | fin a, fin b => fin (a * b)
  | posInf, posInf => posInf
  | posInf, negInf => negInf
  | negInf, posInf => negInf
  | negInf, negInf => posInf
  | posInf, fin b => if 0 < b then posInf else if b < 0 then negInf else nan
  | fin a, posInf => if 0 < a then posInf else if a < 0 then negInf else nan
  | negInf, fin b => if 0 < b then negInf else if b < 0 then posInf else nan
  | fin a, negInf => if 0 < a then negInf else if a < 0 then posInf else nan

/-- JavaScript `/` on numbers (IEEE-754 division, exact on the rational
carrier; with signed zero collapsed, a finite value divided by an infinity is
0). -/
def div : JsNum → JsNum → JsNum
  | nan, _ => nan
  | _, nan => nan
  | fin a, fin b =>
      if b = 0 then (if a = 0 then nan else if 0 < a then posInf else negInf)
      else fin (a / b)
  | posInf, fin b => if b < 0 then negInf else posInf
  | negInf, fin b => if b < 0 then posInf else negInf
  | fin _, posInf => fin 0
  | fin _, negInf => fin 0
  | posInf, posInf => nan
  | posInf, negInf => nan
  | negInf, posInf => nan
  | negInf, negInf => nan

/-- JavaScript `<` on numbers: false whenever an operand is NaN. -/
def lt : JsNum → JsNum → Bool
  | nan, _ => false
  | _, nan => false
  | negInf, negInf => false
  | negInf, _ => true
  | _, negInf => false
  | posInf, _ => false
  | fin _, posInf => true
  | fin a, fin b => decide (a < b)

/-- JavaScript `>` on numbers. -/
def gt (a b : JsNum) : Bool := lt b a

/-- JavaScript `==` (equivalently, on numbers, `===`): false whenever an
operand is NaN, value equality otherwise. -/
def eq : JsNum → JsNum → Bool
  | nan, _ => false
  | _, nan => false
  | a, b => decide (a = b)

/-- JavaScript `Math.min` on two numbers: NaN if either operand is NaN,
otherwise the smaller operand. -/
def min : JsNum → JsNum → JsNum
  | nan, _ => nan
  | _, nan => nan
  | a, b => if lt a b then a else b

/-- JavaScript `Math.max` on two numbers: NaN if either operand is NaN,
otherwise the larger operand. -/
def max : JsNum → JsNum → JsNum
  | nan, _ => nan
  | _, nan => nan
  | a, b => if lt a b then b else a

/-- JavaScript `v || 0` on a number `v`: the falsy numbers (0, -0, NaN) are
coerced to 0, every other number is returned unchanged. -/
def orZero (v : JsNum) : JsNum := if v = nan ∨ v = fin 0 then fin 0 else v

end JsNum

/-- The `Vector` entity of `src/unnamed/part_000`: three components, each a
JavaScript number.  (Named `Vec` here because `Vector` is taken by the ambient
library; every method keeps its source name.) -/
structure Vec where
  x : JsNum
  y : JsNum
  z : JsNum
deriving DecidableEq

/-- Argument of the overloaded operations `add`, `sub` and `set`: either a
vector (`x instanceof Vector` / not `typeof x === "number"`) or the three
numeric parameters, with the JavaScript defaults `y = 0`, `z = 0` applied at
the call site. -/
inductive Arg where
  | vec : Vec → Arg
  | nums : JsNum → JsNum → JsNum → Arg
deriving DecidableEq

/-- The zero vector `new Vector()`. -/
def zeroV : Vec := ⟨.fin 0, .fin 0, .fin 0⟩

namespace Vec

variable (hyp : JsNum → JsNum → JsNum → JsNum)
variable (acosF cosF sinF : JsNum → JsNum)

/-- Method `add`: elementwise in-place addition of a vector or of up to three
numeric offsets. -/
def add (v : Vec) : Arg → Vec
  | .nums ax ay az => ⟨v.x.add ax, v.y.add ay, v.z.add az⟩
  | .vec w => ⟨v.x.add w.x, v.y.add w.y, v.z.add w.z⟩

/-- Method `sub`: elementwise in-place subtraction. -/
def sub (v : Vec) : Arg → Vec
  | .nums ax ay az => ⟨v.x.sub ax, v.y.sub ay, v.z.sub az⟩
  | .vec w => ⟨v.x.sub w.x, v.y.sub w.y, v.z.sub w.z⟩

/-- Method `mult`: in-place scale; a non-finite factor returns the vector
without modification. -/
def mult (v : Vec) (factor : JsNum) : Vec :=
  if !factor.isFinite then v
  else ⟨v.x.mul factor, v.y.mul factor, v.z.mul factor⟩

/-- Method `div`: in-place scale by the reciprocal; a non-finite divisor or a
divisor equal to 0 returns the vector without modification. -/
def div (v : Vec) (divisor : JsNum) : Vec :=
  if !divisor.isFinite || divisor.eq (.fin 0) then v
  else ⟨v.x.div divisor, v.y.div divisor, v.z.div divisor⟩

/-- Method `set`: the vector branch copies the argument's components; the
numeric branch assigns the first numeric argument to all three components
(the implementation does not read its `y` and `z` parameters). -/
def set (v : Vec) : Arg → Vec
  | .vec w => ⟨w.x, w.y, w.z⟩
  | .nums ax _ _ => ⟨ax, ax, ax⟩

/-- Method `copy`: a new vector with the same components. -/
def copy (v : Vec) : Vec := ⟨v.x, v.y, v.z⟩

/-- Method `magSq`: `x * x + y * y + z * z`. -/
def magSq (v : Vec) : JsNum :=
  ((v.x.mul v.x).add (v.y.mul v.y)).add (v.z.mul v.z)

/-- Method `mag`: `Math.hypot(x, y, z)`, with hypot an abstract parameter. -/
def mag (v : Vec) : JsNum := hyp v.x v.y v.z

/-- Method `normalize`: if `Math.hypot` of the components is strictly equal to
0 the vector is set to (0, 0, 0), otherwise it is divided by that magnitude. -/
def normalize (v : Vec) : Vec :=
  if (hyp v.x v.y v.z).eq (.fin 0) then v.set (.nums (.fin 0) (.fin 0) (.fin 0))
  else v.div (hyp v.x v.y v.z)

/-- Method `setMag`: divide by the current magnitude, then multiply by the
requested one. -/
def setMag (v : Vec) (m : JsNum) : Vec := (v.div (mag hyp v)).mult m

/-- Method `max`: the receiver when its magnitude is strictly greater than the
argument's, the argument otherwise. -/
def max (v w : Vec) : Vec := if (mag hyp v).gt (mag hyp w) then v else w

/-- Method `min`: the receiver when its magnitude is strictly smaller than the
argument's, the argument otherwise. -/
def min (v w : Vec) : Vec := if (mag hyp v).lt (mag hyp w) then v else w

/-- Method `equals`: exact component-wise strict equality. -/
def equals (v w : Vec) : Bool := v.x.eq w.x && v.y.eq w.y && v.z.eq w.z

/-- Method `dist`: `Math.hypot` of the component differences. -/
def dist (v w : Vec) : JsNum := hyp (v.x.sub w.x) (v.y.sub w.y) (v.z.sub w.z)

/-- Method `distSq`: the distance squared, `Math.hypot(...) ** 2`, modelled as
the product of the hypot value with itself (exact for `** 2`). -/
def distSq (v w : Vec) : JsNum := (dist hyp v w).mul (dist hyp v w)

/-- Method `cross`: the standard 3D cross product, returning a new vector. -/
def cross (v w : Vec) : Vec :=
  ⟨(v.y.mul w.z).sub (v.z.mul w.y),
   (v.z.mul w.x).sub (v.x.mul w.z),
   (v.x.mul w.y).sub (v.y.mul w.x)⟩

/-- Method `dot`: the standard dot product. -/
def dot (v w : Vec) : JsNum :=
  ((v.x.mul w.x).add (v.y.mul w.y)).add (v.z.mul w.z)

/-- Method `maxMag`: when the current magnitude is strictly greater than `m`,
divide by the current magnitude and multiply by `m`; otherwise unchanged. -/
def maxMag (v : Vec) (m : JsNum) : Vec :=
  if (hyp v.x v.y v.z).gt m then (v.div (hyp v.x v.y v.z)).mult m else v

/-- Method `minMag`: when the current magnitude is strictly smaller than `m`,
divide by the current magnitude and multiply by `m`; otherwise unchanged. -/
def minMag (v : Vec) (m : JsNum) : Vec :=
  if (hyp v.x v.y v.z).lt m then (v.div (hyp v.x v.y v.z)).mult m else v

/-- Method `constrainMag`: clamp the magnitude into `[mn, mx]` through the
same divide-then-multiply rescale. -/
def constrainMag (v : Vec) (mn mx : JsNum) : Vec :=
  if (hyp v.x v.y v.z).lt mn then (v.div (hyp v.x v.y v.z)).mult mn
  else if (hyp v.x v.y v.z).gt mx then (v.div (hyp v.x v.y v.z)).mult mx
  else v

/-- Method `toArray`: the ordered component list. -/
def toArray (v : Vec) : List JsNum := [v.x, v.y, v.z]

/-- Method `changeOfBasis`: in-place linear transform by the three basis
vectors (the defaults are the standard axes, applied at call sites). -/
def changeOfBasis (v : Vec) (vi vj vk : Vec) : Vec :=
  ⟨((v.x.mul vi.x).add (v.y.mul vj.x)).add (v.z.mul vk.x),
   ((v.x.mul vi.y).add (v.y.mul vj.y)).add (v.z.mul vk.y),
   ((v.x.mul vi.z).add (v.y.mul vj.z)).add (v.z.mul vk.z)⟩

/-- Method `lerp`: the alpha is clamped into [0, 1] by
`Math.min(Math.max(alpha, 0), 1)` before interpolating in place. -/
def lerp (v w : Vec) (alpha : JsNum) : Vec :=
  ⟨v.x.add ((w.x.sub v.x).mul (JsNum.min (JsNum.max alpha (.fin 0)) (.fin 1))),
   v.y.add ((w.y.sub v.y).mul (JsNum.min (JsNum.max alpha (.fin 0)) (.fin 1))),
   v.z.add ((w.z.sub v.z).mul (JsNum.min (JsNum.max alpha (.fin 0)) (.fin 1)))⟩

/-- Method `angleBetween`: 0 when the product of the magnitudes equals 0,
otherwise the arccosine of the dot product over the magnitude product with the
arccosine argument clamped into [-1, 1]. -/
def angleBetween (v w : Vec) : JsNum :=
  if ((mag hyp v).mul (mag hyp w)).eq (.fin 0) then .fin 0
  else acosF (JsNum.max (JsNum.min ((dot v w).div ((mag hyp v).mul (mag hyp w)))
    (.fin 1)) (.fin (-1)))

/-- Method `rotate`: XY-plane rotation in place, with the `|| 0` falsy
coercion applied to each of the two computed components. -/
def rotate (v : Vec) (angle : JsNum) : Vec :=
  ⟨JsNum.orZero ((v.x.mul (cosF angle)).add (v.y.mul (sinF angle).neg)),
   JsNum.orZero ((v.x.mul (sinF angle)).add (v.y.mul (cosF angle))),
   v.z⟩

/-- Method `rotateX`: YZ-plane rotation in place, with the `|| 0` coercion. -/
def rotateX (v : Vec) (angle : JsNum) : Vec :=
  ⟨v.x,
   JsNum.orZero ((v.y.mul (cosF angle)).add (v.z.mul (sinF angle).neg)),
   JsNum.orZero ((v.y.mul (sinF angle)).add (v.z.mul (cosF angle)))⟩

/-- Method `rotateY`: XZ-plane rotation in place, with the `|| 0` coercion. -/
def rotateY (v : Vec) (angle : JsNum) : Vec :=
  ⟨JsNum.orZero ((v.x.mul (cosF angle)).add (v.z.mul (sinF angle))),
   v.y,
   JsNum.orZero ((v.x.mul (sinF angle).neg).add (v.z.mul (cosF angle)))⟩

end Vec

namespace VF

variable (hyp : JsNum → JsNum → JsNum → JsNum)
variable (acosF cosF sinF : JsNum → JsNum)
variable (piV : JsNum)

/-- Free function `add` of `src/src/vectorFunctions.ts`: a new vector from the
elementwise sum. -/
def add (vector : Vec) : Arg → Vec
  | .vec w => ⟨vector.x.add w.x, vector.y.add w.y, vector.z.add w.z⟩
  | .nums ax ay az => ⟨vector.x.add ax, vector.y.add ay, vector.z.add az⟩

/-- Free function `sub`: a new vector from the elementwise difference. -/
def sub (vector : Vec) : Arg → Vec
  | .vec w => ⟨vector.x.sub w.x, vector.y.sub w.y, vector.z.sub w.z⟩
  | .nums ax ay az => ⟨vector.x.sub ax, vector.y.sub ay, vector.z.sub az⟩

/-- Free function `mult`: a new scaled vector, or a plain copy when the factor
is not finite. -/
def mult (vector : Vec) (factor : JsNum) : Vec :=
  if factor.isFinite then
    ⟨vector.x.mul factor, vector.y.mul factor, vector.z.mul factor⟩
  else ⟨vector.x, vector.y, vector.z⟩

/-- Free function `div`: a new vector scaled by the precomputed reciprocal
`1 / divisor`, or a plain copy when the divisor equals 0 or is not finite. -/
def div (vector : Vec) (divisor : JsNum) : Vec :=
  if !divisor.eq (.fin 0) && divisor.isFinite then
    ⟨vector.x.mul ((JsNum.fin 1).div divisor),
     vector.y.mul ((JsNum.fin 1).div divisor),
     vector.z.mul ((JsNum.fin 1).div divisor)⟩
  else ⟨vector.x, vector.y, vector.z⟩

/-- Free function `normalize`: delegates to the free `div` with the hypot of
the components (so a zero magnitude hits `div`'s guard and yields a plain
copy). -/
def normalize (vector : Vec) : Vec :=
  div vector (hyp vector.x vector.y vector.z)

/-- Free function `setMag`: the free `div`, whose fresh result is then mutated
by the entity method `mult`. -/
def setMag (vector : Vec) (m : JsNum) : Vec :=
  Vec.mult (div vector (hyp vector.x vector.y vector.z)) m

/-- Free function `max`: a copy of whichever input has the strictly larger
magnitude, a copy of the second input on ties. -/
def max (vector otherVector : Vec) : Vec :=
  if (Vec.mag hyp vector).gt (Vec.mag hyp otherVector) then vector.copy
  else otherVector.copy

/-- Free function `min`: a copy of whichever input has the strictly smaller
magnitude, a copy of the second input on ties. -/
def min (vector otherVector : Vec) : Vec :=
  if (Vec.mag hyp vector).lt (Vec.mag hyp otherVector) then vector.copy
  else otherVector.copy

/-- Free function `equals`: component-wise `==`. -/
def equals (vector otherVector : Vec) : Bool :=
  vector.x.eq otherVector.x && vector.y.eq otherVector.y &&
    vector.z.eq otherVector.z

/-- Free function `dist`. -/
def dist (vector otherVector : Vec) : JsNum :=
  hyp (vector.x.sub otherVector.x) (vector.y.sub otherVector.y)
    (vector.z.sub otherVector.z)

/-- Free function `distSq`: the `dist` formula squared via `** 2`. -/
def distSq (vector otherVector : Vec) : JsNum :=
  (dist hyp vector otherVector).mul (dist hyp vector otherVector)

/-- Free function `cross`. -/
def cross (vector otherVector : Vec) : Vec :=
  ⟨(vector.y.mul otherVector.z).sub (vector.z.mul otherVector.y),
   (vector.z.mul otherVector.x).sub (vector.x.mul otherVector.z),
   (vector.x.mul otherVector.y).sub (vector.y.mul otherVector.x)⟩

/-- Free function `dot`. -/
def dot (vector otherVector : Vec) : JsNum :=
  ((vector.x.mul otherVector.x).add (vector.y.mul otherVector.y)).add
    (vector.z.mul otherVector.z)

/-- Free function `toArray`. -/
def toArray (vector : Vec) : List JsNum := [vector.x, vector.y, vector.z]

/-- Free function `changeOfBasis`. -/
def changeOfBasis (vector vi vj vk : Vec) : Vec :=
  ⟨((vector.x.mul vi.x).add (vector.y.mul vj.x)).add (vector.z.mul vk.x),
   ((vector.x.mul vi.y).add (vector.y.mul vj.y)).add (vector.z.mul vk.y),
   ((vector.x.mul vi.z).add (vector.y.mul vj.z)).add (vector.z.mul vk.z)⟩

/-- Free function `lerp`: interpolation with the alpha used as given, with no
clamp into [0, 1]. -/
def lerp (vector otherVector : Vec) (alpha : JsNum) : Vec :=
  ⟨vector.x.add ((otherVector.x.sub vector.x).mul alpha),
   vector.y.add ((otherVector.y.sub vector.y).mul alpha),
   vector.z.add ((otherVector.z.sub vector.z).mul alpha)⟩

/-- Free function `angleBetween`: `undefined` (modelled as `none`) when the
product of the magnitudes equals 0, otherwise the clamped arccosine. -/
def angleBetween (vector otherVector : Vec) : Option JsNum :=
  if !((Vec.mag hyp vector).mul (Vec.mag hyp otherVector)).eq (.fin 0) then
    some (acosF (JsNum.max (JsNum.min ((Vec.dot vector otherVector).div
      ((Vec.mag hyp vector).mul (Vec.mag hyp otherVector))) (.fin 1))
      (.fin (-1))))
  else none

/-- Free function `rotate`: a new vector, with no `|| 0` coercion and the z
component carried over. -/
def rotate (vector : Vec) (angle : JsNum) : Vec :=
  ⟨(vector.x.mul (cosF angle)).add (vector.y.mul (sinF angle).neg),
   (vector.x.mul (sinF angle)).add (vector.y.mul (cosF angle)),
   vector.z⟩

/-- Free function `rotateX`: a new vector, with no `|| 0` coercion. -/
def rotateX (vector : Vec) (angle : JsNum) : Vec :=
  ⟨vector.x,
   (vector.y.mul (cosF angle)).add (vector.z.mul (sinF angle).neg),
   (vector.y.mul (sinF angle)).add (vector.z.mul (cosF angle))⟩

/-- Free function `rotateY`: a new vector, with no `|| 0` coercion. -/
def rotateY (vector : Vec) (angle : JsNum) : Vec :=
  ⟨(vector.x.mul (cosF angle)).add (vector.z.mul (sinF angle)),
   vector.y,
   (vector.x.mul (sinF angle).neg).add (vector.z.mul (cosF angle))⟩

/-- Free function `fromAngle`: `new Vector(cos(angle), sin(angle))`. -/
def fromAngle (angle : JsNum) : Vec := ⟨cosF angle, sinF angle, .fin 0⟩

/-- Free function `fromAngles`. -/
def fromAngles (polar azimuth : JsNum) : Vec :=
  ⟨(sinF azimuth).mul (cosF polar),
   (sinF azimuth).mul (sinF polar),
   cosF azimuth⟩

/-- Free function `random2D`: `fromAngle(Math.random() * Math.PI * 2)`, with
the `Math.random()` sample and `Math.PI` as abstract parameters. -/
def random2D (rnd : JsNum) : Vec :=
  fromAngle cosF sinF ((rnd.mul piV).mul (.fin 2))

/-- Free function `random3D`: `fromAngles` at two scaled random samples. -/
def random3D (rnd1 rnd2 : JsNum) : Vec :=
  fromAngles cosF sinF ((rnd1.mul piV).mul (.fin 2)) ((rnd2.mul piV).mul (.fin 2))

/-- Free function `scalarProyection`, value level: the first intermediate
vector built by `sub` is threaded through the two mutating method calls
(`normalize`, then `mult` by the dot with the already-normalized value), and
`add` builds the returned vector. -/
def scalarProyection (vertex vector otherVector : Vec) : Vec :=
  let vertexVector := sub vector (.vec vertex)
  let vertexOtherVector := sub otherVector (.vec vertex)
  let vertexVector2 := Vec.normalize hyp vertexVector
  let vertexVector3 := Vec.mult vertexVector2 (Vec.dot vertexOtherVector vertexVector2)
  add vertex (.vec vertexVector3)

end VF

namespace VF2

variable (hyp : JsNum → JsNum → JsNum → JsNum)
variable (acosF cosF sinF : JsNum → JsNum)
variable (piV : JsNum)

/-- Arrow-function `add` of the duplicated facade `src/unnamed/part_001`. -/
def add (vector : Vec) : Arg → Vec
  | .vec w => ⟨vector.x.add w.x, vector.y.add w.y, vector.z.add w.z⟩
  | .nums ax ay az => ⟨vector.x.add ax, vector.y.add ay, vector.z.add az⟩

/-- Arrow-function `sub` of the duplicated facade. -/
def sub (vector : Vec) : Arg → Vec
  | .vec w => ⟨vector.x.sub w.x, vector.y.sub w.y, vector.z.sub w.z⟩
  | .nums ax ay az => ⟨vector.x.sub ax, vector.y.sub ay, vector.z.sub az⟩

/-- Arrow-function `mult` of the duplicated facade. -/
def mult (vector : Vec) (factor : JsNum) : Vec :=
  if factor.isFinite then
    ⟨vector.x.mul factor, vector.y.mul factor, vector.z.mul factor⟩
  else ⟨vector.x, vector.y, vector.z⟩

/-- Arrow-function `div` of the duplicated facade. -/
def div (vector : Vec) (divisor : JsNum) : Vec :=
  if !divisor.eq (.fin 0) && divisor.isFinite then
    ⟨vector.x.mul ((JsNum.fin 1).div divisor),
     vector.y.mul ((JsNum.fin 1).div divisor),
     vector.z.mul ((JsNum.fin 1).div divisor)⟩
  else ⟨vector.x, vector.y, vector.z⟩

/-- Arrow-function `normalize` of the duplicated facade. -/
def normalize (vector : Vec) : Vec :=
  div vector (hyp vector.x vector.y vector.z)

/-- Arrow-function `setMag` of the duplicated facade. -/
def setMag (vector : Vec) (m : JsNum) : Vec :=
  Vec.mult (div vector (hyp vector.x vector.y vector.z)) m

/-- Arrow-function `max` of the duplicated facade. -/
def max (vector otherVector : Vec) : Vec :=
  if (Vec.mag hyp vector).gt (Vec.mag hyp otherVector) then vector.copy
  else otherVector.copy

/-- Arrow-function `min` of the duplicated facade. -/
def min (vector otherVector : Vec) : Vec :=
  if (Vec.mag hyp vector).lt (Vec.mag hyp otherVector) then vector.copy
  else otherVector.copy

/-- Arrow-function `equals` of the duplicated facade. -/
def equals (vector otherVector : Vec) : Bool :=
  vector.x.eq otherVector.x && vector.y.eq otherVector.y &&
    vector.z.eq otherVector.z

/-- Arrow-function `dist` of the duplicated facade. -/
def dist (vector otherVector : Vec) : JsNum :=
  hyp (vector.x.sub otherVector.x) (vector.y.sub otherVector.y)
    (vector.z.sub otherVector.z)

/-- Arrow-function `distSq` of the duplicated facade. -/
def distSq (vector otherVector : Vec) : JsNum :=
  (dist hyp vector otherVector).mul (dist hyp vector otherVector)

/-- Arrow-function `cross` of the duplicated facade. -/
def cross (vector otherVector : Vec) : Vec :=
  ⟨(vector.y.mul otherVector.z).sub (vector.z.mul otherVector.y),
   (vector.z.mul otherVector.x).sub (vector.x.mul otherVector.z),
   (vector.x.mul otherVector.y).sub (vector.y.mul otherVector.x)⟩

/-- Arrow-function `dot` of the duplicated facade. -/
def dot (vector otherVector : Vec) : JsNum :=
  ((vector.x.mul otherVector.x).add (vector.y.mul otherVector.y)).add
    (vector.z.mul otherVector.z)

/-- Arrow-function `toArray` of the duplicated facade. -/
def toArray (vector : Vec) : List JsNum := [vector.x, vector.y, vector.z]

/-- Arrow-function `changeOfBasis` of the duplicated facade. -/
def changeOfBasis (vector vi vj vk : Vec) : Vec :=
  ⟨((vector.x.mul vi.x).add (vector.y.mul vj.x)).add (vector.z.mul vk.x),
   ((vector.x.mul vi.y).add (vector.y.mul vj.y)).add (vector.z.mul vk.y),
   ((vector.x.mul vi.z).add (vector.y.mul vj.z)).add (vector.z.mul vk.z)⟩

/-- Arrow-function `lerp` of the duplicated facade (again with no clamp). -/
def lerp (vector otherVector : Vec) (alpha : JsNum) : Vec :=
  ⟨vector.x.add ((otherVector.x.sub vector.x).mul alpha),
   vector.y.add ((otherVector.y.sub vector.y).mul alpha),
   vector.z.add ((otherVector.z.sub vector.z).mul alpha)⟩

/-- Arrow-function `angleBetween` of the duplicated facade. -/
def angleBetween (vector otherVector : Vec) : Option JsNum :=
  if !((Vec.mag hyp vector).mul (Vec.mag hyp otherVector)).eq (.fin 0) then
    some (acosF (JsNum.max (JsNum.min ((Vec.dot vector otherVector).div
      ((Vec.mag hyp vector).mul (Vec.mag hyp otherVector))) (.fin 1))
      (.fin (-1))))
  else none

/-- Arrow-function `rotate` of the duplicated facade. -/
def rotate (vector : Vec) (angle : JsNum) : Vec :=
  ⟨(vector.x.mul (cosF angle)).add (vector.y.mul (sinF angle).neg),
   (vector.x.mul (sinF angle)).add (vector.y.mul (cosF angle)),
   vector.z⟩

/-- Arrow-function `rotateX` of the duplicated facade. -/
def rotateX (vector : Vec) (angle : JsNum) : Vec :=
  ⟨vector.x,
   (vector.y.mul (cosF angle)).add (vector.z.mul (sinF angle).neg),
   (vector.y.mul (sinF angle)).add (vector.z.mul (cosF angle))⟩

/-- Arrow-function `rotateY` of the duplicated facade. -/
def rotateY (vector : Vec) (angle : JsNum) : Vec :=
  ⟨(vector.x.mul (cosF angle)).add (vector.z.mul (sinF angle)),
   vector.y,
   (vector.x.mul (sinF angle).neg).add (vector.z.mul (cosF angle))⟩

/-- Arrow-function `fromAngle` of the duplicated facade. -/
def fromAngle (angle : JsNum) : Vec := ⟨cosF angle, sinF angle, .fin 0⟩

/-- Arrow-function `fromAngles` of the duplicated facade. -/
def fromAngles (polar azimuth : JsNum) : Vec :=
  ⟨(sinF azimuth).mul (cosF polar),
   (sinF azimuth).mul (sinF polar),
   cosF azimuth⟩

/-- Arrow-function `random2D` of the duplicated facade. -/
def random2D (rnd : JsNum) : Vec :=
  fromAngle cosF sinF ((rnd.mul piV).mul (.fin 2))

/-- Arrow-function `random3D` of the duplicated facade. -/
def random3D (rnd1 rnd2 : JsNum) : Vec :=
  fromAngles cosF sinF ((rnd1.mul piV).mul (.fin 2)) ((rnd2.mul piV).mul (.fin 2))

/-- Arrow-function `scalarProyection` of the duplicated facade. -/
def scalarProyection (vertex vector otherVector : Vec) : Vec :=
  let vertexVector := sub vector (.vec vertex)
  let vertexOtherVector := sub otherVector (.vec vertex)
  let vertexVector2 := Vec.normalize hyp vertexVector
  let vertexVector3 := Vec.mult vertexVector2 (Vec.dot vertexOtherVector vertexVector2)
  add vertex (.vec vertexVector3)

end VF2

/-- Concrete computable stand-in for `Math.hypot`, used only to evaluate
closed witnesses: IEEE special cases first (any infinite argument gives
+Infinity, otherwise any NaN gives NaN), and on finite arguments the exact
rational square root `Rat.sqrt` of the sum of squares, which agrees with the
real hypot whenever that square root is rational — in particular at every
input on which a witness below evaluates it. -/
def hypotModel (a b c : JsNum) : JsNum :=
  if a = .posInf ∨ a = .negInf ∨ b = .posInf ∨ b = .negInf ∨
      c = .posInf ∨ c = .negInf then .posInf
  else
    match a, b, c with
    | .fin qa, .fin qb, .fin qc => .fin (Rat.sqrt (qa * qa + qb * qb + qc * qc))
    | _, _, _ => .nan

/-- Stand-in for the abstract `Math.acos` parameter in closed witnesses; no
theorem depends on its values, so the identity is used. -/
def acosModel (v : JsNum) : JsNum := v

/-- Stand-in for the abstract `Math.cos` parameter in closed witnesses; it
agrees with cosine at angle 0, the only angle a witness uses. -/
def cosModel (_v : JsNum) : JsNum := .fin 1

/-- Stand-in for the abstract `Math.sin` parameter in closed witnesses; it
agrees with sine at angle 0, the only angle a witness uses. -/
def sinModel (_v : JsNum) : JsNum := .fin 0

/-- Reference to an allocated `Vector` object: an index into the store. -/
abbrev Ref := Nat

/-- Store of allocated `Vector` objects, used to make the facade's aliasing
and in-place mutation observable. -/
abbrev Store := List Vec

/-- Read the object a reference points to. -/
def readRef (s : Store) (r : Ref) : Vec := s.getD r zeroV

/-- Overwrite the object a reference points to (in-place mutation of that
object). -/
def writeRef (s : Store) (r : Ref) (v : Vec) : Store := s.set r v

/-- Allocate a fresh object (`new Vector(...)` or `.copy()`), returning the
extended store and the fresh reference. -/
def allocRef (s : Store) (v : Vec) : Store × Ref := (s ++ [v], s.length)

namespace StoreVF

variable (hyp : JsNum → JsNum → JsNum → JsNum)
variable (cosF sinF : JsNum → JsNum)

/-- Store-level argument of the overloaded facade operations: the vector form
carries a reference. -/
inductive ArgR where
  | vec : Ref → ArgR
  | nums : JsNum → JsNum → JsNum → ArgR

/-- Dereference a store-level argument to the value-level argument. -/
def argVal (s : Store) : ArgR → Arg
  | .vec r => .vec (readRef s r)
  | .nums a b c => .nums a b c

/-- Store-level free `add`: reads its arguments and allocates the result. -/
def addS (s : Store) (r : Ref) (a : ArgR) : Store × Ref :=
  allocRef s (VF.add (readRef s r) (argVal s a))

/-- Store-level free `sub`. -/
def subS (s : Store) (r : Ref) (a : ArgR) : Store × Ref :=
  allocRef s (VF.sub (readRef s r) (argVal s a))

/-- Store-level free `mult`. -/
def multS (s : Store) (r : Ref) (factor : JsNum) : Store × Ref :=
  allocRef s (VF.mult (readRef s r) factor)

/-- Store-level free `div`. -/
def divS (s : Store) (r : Ref) (divisor : JsNum) : Store × Ref :=
  allocRef s (VF.div (readRef s r) divisor)

/-- Store-level free `normalize`. -/
def normalizeS (s : Store) (r : Ref) : Store × Ref :=
  allocRef s (VF.normalize hyp (readRef s r))

/-- Store-level free `setMag`: the free `div` allocates a fresh vector, which
the entity method `mult` then mutates in place. -/
def setMagS (s : Store) (r : Ref) (m : JsNum) : Store × Ref :=
  let p := allocRef s (VF.div (readRef s r)
    (hyp (readRef s r).x (readRef s r).y (readRef s r).z))
  (writeRef p.1 p.2 (Vec.mult (readRef p.1 p.2) m), p.2)

/-- Store-level free `max`: reads both inputs and allocates a copy of the
winner. -/
def maxS (s : Store) (r1 r2 : Ref) : Store × Ref :=
  allocRef s (VF.max hyp (readRef s r1) (readRef s r2))

/-- Store-level free `min`. -/
def minS (s : Store) (r1 r2 : Ref) : Store × Ref :=
  allocRef s (VF.min hyp (readRef s r1) (readRef s r2))

/-- Store-level free `cross`. -/
def crossS (s : Store) (r1 r2 : Ref) : Store × Ref :=
  allocRef s (VF.cross (readRef s r1) (readRef s r2))

/-- Store-level free `changeOfBasis`. -/
def changeOfBasisS (s : Store) (r ri rj rk : Ref) : Store × Ref :=
  allocRef s (VF.changeOfBasis (readRef s r) (readRef s ri) (readRef s rj)
    (readRef s rk))

/-- Store-level free `lerp`. -/
def lerpS (s : Store) (r1 r2 : Ref) (alpha : JsNum) : Store × Ref :=
  allocRef s (VF.lerp (readRef s r1) (readRef s r2) alpha)

/-- Store-level free `rotate`. -/
def rotateS (s : Store) (r : Ref) (angle : JsNum) : Store × Ref :=
  allocRef s (VF.rotate cosF sinF (readRef s r) angle)

/-- Store-level free `rotateX`. -/
def rotateXS (s : Store) (r : Ref) (angle : JsNum) : Store × Ref :=
  allocRef s (VF.rotateX cosF sinF (readRef s r) angle)

/-- Store-level free `rotateY`. -/
def rotateYS (s : Store) (r : Ref) (angle : JsNum) : Store × Ref :=
  allocRef s (VF.rotateY cosF sinF (readRef s r) angle)

/-- Store-level free `scalarProyection`, following the source line by line:
`sub` allocates the two intermediate vectors, the first intermediate is then
mutated in place by the method calls `normalize` and `mult` (the `dot` in the
factor reads the already-normalized intermediate), and `add` allocates the
returned vector.  The three inputs are only ever read. -/
def scalarProyectionS (s : Store) (vertex vector otherVector : Ref) :
    Store × Ref :=
  let p1 := allocRef s (VF.sub (readRef s vector) (.vec (readRef s vertex)))
  let p2 := allocRef p1.1 (VF.sub (readRef p1.1 otherVector)
    (.vec (readRef p1.1 vertex)))
  let s3 := writeRef p2.1 p1.2 (Vec.normalize hyp (readRef p2.1 p1.2))
  let s4 := writeRef s3 p1.2 (Vec.mult (readRef s3 p1.2)
    (Vec.dot (readRef s3 p2.2) (readRef s3 p1.2)))
  allocRef s4 (VF.add (readRef s4 vertex) (.vec (readRef s4 p1.2)))

end StoreVF

/-- Reading below the length of the original store is unaffected by an
allocation. -/
theorem readRef_allocRef (s : Store) (v : Vec) (r : Ref) (h : r < s.length) :
    readRef (allocRef s v).1 r = readRef s r := by
  simp [readRef, allocRef, List.getD_eq_getElem?_getD, List.getElem?_append, h]

/-- The reference returned by an allocation is fresh: no smaller reference is
aliased by it. -/
theorem allocRef_fresh (s : Store) (v : Vec) : s.length ≤ (allocRef s v).2 :=
  Nat.le_refl _

/-- Writing through one reference does not change what a different reference
points to. -/
theorem readRef_writeRef_ne (s : Store) (r r' : Ref) (v : Vec) (h : r' ≠ r) :
    readRef (writeRef s r v) r' = readRef s r' := by
  simp [readRef, writeRef, List.getD_eq_getElem?_getD,
    List.getElem?_set_ne (Ne.symm h)]

namespace JsNum

/-- Addition of finite numbers is exact rational addition. -/
theorem add_fin (a b : ℚ) : (fin a).add (fin b) = fin (a + b) := rfl

/-- Multiplication of finite numbers is exact rational multiplication. -/
theorem mul_fin (a b : ℚ) : (fin a).mul (fin b) = fin (a * b) := rfl

/-- Subtraction of finite numbers is exact rational subtraction. -/
theorem sub_fin (a b : ℚ) : (fin a).sub (fin b) = fin (a - b) := by
  simp [sub, neg, add, sub_eq_add_neg]

/-- Division of finite numbers by a nonzero finite number is exact rational
division. -/
theorem div_fin (a b : ℚ) (h : b ≠ 0) : (fin a).div (fin b) = fin (a / b) := by
  simp [div, h]

/-- No number is strictly less than itself under the JavaScript `<`. -/
theorem lt_self (m : JsNum) : m.lt m = false := by
  cases m <;> simp [lt]

/-- The JavaScript `== 0` test holds exactly on the value 0. -/
theorem eq_fin_iff (m : JsNum) (q : ℚ) : m.eq (fin q) = true ↔ m = fin q := by
  cases m <;> simp [eq]

/-- The `|| 0` coercion is the identity on finite numbers. -/
theorem orZero_fin (q : ℚ) : orZero (fin q) = fin q := by
  by_cases h : q = 0 <;> simp [orZero, h]

end JsNum

/-- A `copy` has the same components as its source vector. -/
theorem Vec.copy_eq (v : Vec) : Vec.copy v = v := rfl

/-- C5: the entity `mult` with a non-finite factor and the entity `div` with a
divisor that is 0 or non-finite are silent no-ops on the receiver. -/
theorem mult_nonfinite_div_zero_noop (v : Vec) (factor divisor : JsNum)
    (hf : factor.isFinite = false)
    (hd : divisor = JsNum.fin 0 ∨ divisor.isFinite = false) :
    Vec.mult v factor = v ∧ Vec.div v divisor = v := by
  refine ⟨by simp [Vec.mult, hf], ?_⟩
  rcases hd with h | h
  · simp [Vec.div, h, JsNum.eq]
  · simp [Vec.div, h]

/-- C5 witness: `mult` at NaN and at Infinity, `div` at 0, on a concrete
vector. -/
theorem mult_nonfinite_div_zero_noop_witness :
    Vec.mult ⟨.fin 1, .fin 2, .fin 3⟩ JsNum.nan = ⟨.fin 1, .fin 2, .fin 3⟩ ∧
    Vec.mult ⟨.fin 1, .fin 2, .fin 3⟩ JsNum.posInf = ⟨.fin 1, .fin 2, .fin 3⟩ ∧
    Vec.div ⟨.fin 1, .fin 2, .fin 3⟩ (.fin 0) = ⟨.fin 1, .fin 2, .fin 3⟩ :=
  ⟨(mult_nonfinite_div_zero_noop ⟨.fin 1, .fin 2, .fin 3⟩ JsNum.nan (.fin 0)
      rfl (Or.inl rfl)).1,
   (mult_nonfinite_div_zero_noop ⟨.fin 1, .fin 2, .fin 3⟩ JsNum.posInf (.fin 0)
      rfl (Or.inl rfl)).1,
   (mult_nonfinite_div_zero_noop ⟨.fin 1, .fin 2, .fin 3⟩ JsNum.nan (.fin 0)
      rfl (Or.inl rfl)).2⟩

/-- C2 counterexample: `set(1, 2, 3)` in the numeric form does not overwrite
the components with (1, 2, 3); every component becomes 1. -/
theorem set_numeric_triple_counterexample :
    Vec.set ⟨.fin 9, .fin 8, .fin 7⟩ (.nums (.fin 1) (.fin 2) (.fin 3)) =
      ⟨.fin 1, .fin 1, .fin 1⟩ ∧
    Vec.set ⟨.fin 9, .fin 8, .fin 7⟩ (.nums (.fin 1) (.fin 2) (.fin 3)) ≠
      ⟨.fin 1, .fin 2, .fin 3⟩ :=
  ⟨rfl, by decide⟩

/-- C2 (amended): `set` with a vector argument copies that vector's
components; `set` with numeric arguments assigns the first numeric argument to
all three components, ignoring the second and third numeric arguments (so the
single-numeric-argument form, `y` and `z` defaulted to 0, also sets all three
components to that value). -/
theorem set_overwrites :
    (∀ v w : Vec, Vec.set v (.vec w) = w) ∧
    (∀ (v : Vec) (ax ay az : JsNum), Vec.set v (.nums ax ay az) = ⟨ax, ax, ax⟩) :=
  ⟨fun _ _ => rfl, fun _ _ _ _ => rfl⟩

/-- C9: over the exact embedding, `a.cross(b)` is orthogonal to both `a` and
`b` whenever all components are finite: both dot products are exactly 0. -/
theorem cross_orthogonal (a b : Vec) (a1 a2 a3 b1 b2 b3 : ℚ)
    (hax : a.x = .fin a1) (hay : a.y = .fin a2) (haz : a.z = .fin a3)
    (hbx : b.x = .fin b1) (hby : b.y = .fin b2) (hbz : b.z = .fin b3) :
    Vec.dot (Vec.cross a b) a = .fin 0 ∧ Vec.dot (Vec.cross a b) b = .fin 0 := by
  refine ⟨?_, ?_⟩ <;>
  · simp only [Vec.cross, Vec.dot, hax, hay, haz, hbx, hby, hbz,
      JsNum.mul_fin, JsNum.sub_fin, JsNum.add_fin, JsNum.fin.injEq]
    ring

/-- C9 witness: orthogonality at the concrete pair (1, 2, 3), (4, 5, 6). -/
theorem cross_orthogonal_witness :
    Vec.dot (Vec.cross ⟨.fin 1, .fin 2, .fin 3⟩ ⟨.fin 4, .fin 5, .fin 6⟩)
      ⟨.fin 1, .fin 2, .fin 3⟩ = .fin 0 ∧
    Vec.dot (Vec.cross ⟨.fin 1, .fin 2, .fin 3⟩ ⟨.fin 4, .fin 5, .fin 6⟩)
      ⟨.fin 4, .fin 5, .fin 6⟩ = .fin 0 :=
  cross_orthogonal ⟨.fin 1, .fin 2, .fin 3⟩ ⟨.fin 4, .fin 5, .fin 6⟩
    1 2 3 4 5 6 rfl rfl rfl rfl rfl rfl

/-- C10: when the two magnitudes are equal, the strict comparisons in the
entity `max` and `min` fail, so both return the argument; the facade `max` and
`min` likewise return a copy of the second argument. -/
theorem max_min_tie (hyp : JsNum → JsNum → JsNum → JsNum) (a b : Vec)
    (h : Vec.mag hyp a = Vec.mag hyp b) :
    Vec.max hyp a b = b ∧ Vec.min hyp a b = b ∧
    VF.max hyp a b = Vec.copy b ∧ VF.min hyp a b = Vec.copy b := by
  refine ⟨?_, ?_, ?_, ?_⟩ <;>
    simp [Vec.max, Vec.min, VF.max, VF.min, h, JsNum.gt, JsNum.lt_self]

/-- The hypot model evaluated on finite components. -/
theorem hypotModel_fin (a b c : ℚ) :
    hypotModel (.fin a) (.fin b) (.fin c) =
      .fin (Rat.sqrt (a * a + b * b + c * c)) := by
  simp [hypotModel]

/-- Exact rational square roots: when the radicand is the square of a
nonnegative rational, `Rat.sqrt` returns it. -/
theorem ratSqrt_of_sq (q r : ℚ) (h : 0 ≤ r) (hq : q = r * r) :
    Rat.sqrt q = r := by
  subst hq
  rw [Rat.sqrt_eq]
  exact abs_of_nonneg h

/-- Closed-form evaluation of the hypot model at an exact Pythagorean
input. -/
theorem hypotModel_eval (a b c r : ℚ) (h : 0 ≤ r)
    (hs : a * a + b * b + c * c = r * r) :
    hypotModel (.fin a) (.fin b) (.fin c) = .fin r := by
  rw [hypotModel_fin, ratSqrt_of_sq _ r h hs]

/-- C10 witness: the tie at the concrete pair (3, 4, 0) and (5, 0, 0), both of
magnitude 5 under the hypot model. -/
theorem max_min_tie_witness :
    Vec.max hypotModel ⟨.fin 3, .fin 4, .fin 0⟩ ⟨.fin 5, .fin 0, .fin 0⟩ =
      ⟨.fin 5, .fin 0, .fin 0⟩ ∧
    Vec.min hypotModel ⟨.fin 3, .fin 4, .fin 0⟩ ⟨.fin 5, .fin 0, .fin 0⟩ =
      ⟨.fin 5, .fin 0, .fin 0⟩ ∧
    VF.max hypotModel ⟨.fin 3, .fin 4, .fin 0⟩ ⟨.fin 5, .fin 0, .fin 0⟩ =
      Vec.copy ⟨.fin 5, .fin 0, .fin 0⟩ ∧
    VF.min hypotModel ⟨.fin 3, .fin 4, .fin 0⟩ ⟨.fin 5, .fin 0, .fin 0⟩ =
      Vec.copy ⟨.fin 5, .fin 0, .fin 0⟩ :=
  max_min_tie hypotModel ⟨.fin 3, .fin 4, .fin 0⟩ ⟨.fin 5, .fin 0, .fin 0⟩
    (by
      simp only [Vec.mag]
      rw [hypotModel_eval 3 4 0 5 (by norm_num) (by norm_num),
        hypotModel_eval 5 0 0 5 (by norm_num) (by norm_num)])

/-- C4: when the product of the magnitudes equals 0, the entity `angleBetween`
returns 0 while the facade `angleBetween` returns `undefined` (`none`); when
the product is nonzero, both compute the arccosine of the dot product over the
magnitude product with the arccosine argument clamped into [-1, 1]. -/
theorem angleBetween_policy (hyp : JsNum → JsNum → JsNum → JsNum)
    (acosF : JsNum → JsNum) (a b : Vec) :
    ((Vec.mag hyp a).mul (Vec.mag hyp b) = .fin 0 →
      Vec.angleBetween hyp acosF a b = .fin 0 ∧
      VF.angleBetween hyp acosF a b = none) ∧
    ((Vec.mag hyp a).mul (Vec.mag hyp b) ≠ .fin 0 →
      Vec.angleBetween hyp acosF a b =
        acosF (JsNum.max (JsNum.min ((Vec.dot a b).div
          ((Vec.mag hyp a).mul (Vec.mag hyp b))) (.fin 1)) (.fin (-1))) ∧
      VF.angleBetween hyp acosF a b =
        some (acosF (JsNum.max (JsNum.min ((Vec.dot a b).div
          ((Vec.mag hyp a).mul (Vec.mag hyp b))) (.fin 1)) (.fin (-1))))) := by
  constructor
  · intro h
    have he : ((Vec.mag hyp a).mul (Vec.mag hyp b)).eq (.fin 0) = true :=
      (JsNum.eq_fin_iff _ 0).mpr h
    constructor
    · simp only [Vec.angleBetween, Vec.mag] at he ⊢
      rw [he]
      simp
    · simp only [VF.angleBetween, Vec.mag] at he ⊢
      rw [he]
      simp
  · intro h
    have he : ((Vec.mag hyp a).mul (Vec.mag hyp b)).eq (.fin 0) = false := by
      rcases hb : ((Vec.mag hyp a).mul (Vec.mag hyp b)).eq (.fin 0) with _ | _
      · rfl
      · exact absurd ((JsNum.eq_fin_iff _ 0).mp hb) h
    constructor
    · simp only [Vec.angleBetween, Vec.mag] at he ⊢
      rw [he]
      simp
    · simp only [VF.angleBetween, Vec.mag] at he ⊢
      rw [he]
      simp

/-- C4 witness: the zero-magnitude divergence at a concrete zero/unit pair,
and the clamped-arccosine path at a concrete unit/unit pair. -/
theorem angleBetween_policy_witness :
    Vec.angleBetween hypotModel acosModel zeroV ⟨.fin 1, .fin 0, .fin 0⟩ =
      .fin 0 ∧
    VF.angleBetween hypotModel acosModel zeroV ⟨.fin 1, .fin 0, .fin 0⟩ =
      none ∧
    Vec.angleBetween hypotModel acosModel ⟨.fin 1, .fin 0, .fin 0⟩
        ⟨.fin 1, .fin 0, .fin 0⟩ =
      acosModel (JsNum.max (JsNum.min ((Vec.dot ⟨.fin 1, .fin 0, .fin 0⟩
        ⟨.fin 1, .fin 0, .fin 0⟩).div
        ((Vec.mag hypotModel ⟨.fin 1, .fin 0, .fin 0⟩).mul
          (Vec.mag hypotModel ⟨.fin 1, .fin 0, .fin 0⟩))) (.fin 1))
        (.fin (-1))) := by
  have h0 : Vec.mag hypotModel zeroV = JsNum.fin 0 := by
    simp only [Vec.mag, zeroV]
    exact hypotModel_eval 0 0 0 0 le_rfl (by norm_num)
  have h1 : Vec.mag hypotModel ⟨.fin 1, .fin 0, .fin 0⟩ = JsNum.fin 1 := by
    simp only [Vec.mag]
    exact hypotModel_eval 1 0 0 1 (by norm_num) (by norm_num)
  have hz : (Vec.mag hypotModel zeroV).mul
      (Vec.mag hypotModel ⟨.fin 1, .fin 0, .fin 0⟩) = .fin 0 := by
    rw [h0, h1, JsNum.mul_fin]
    norm_num
  have hnz : (Vec.mag hypotModel ⟨.fin 1, .fin 0, .fin 0⟩).mul
      (Vec.mag hypotModel ⟨.fin 1, .fin 0, .fin 0⟩) ≠ .fin 0 := by
    rw [h1, JsNum.mul_fin]
    simp
  exact ⟨((angleBetween_policy hypotModel acosModel zeroV _).1 hz).1,
    ((angleBetween_policy hypotModel acosModel zeroV _).1 hz).2,
    ((angleBetween_policy hypotModel acosModel _ _).2 hnz).1⟩

/-- C1 (amended): on a vector of magnitude 0, the rescale paths of `maxMag`,
`minMag` and `constrainMag` are silent no-ops: the zero-divisor guard inside
`div` turns the division by the current magnitude into a no-op, the following
`mult` scales zero components (or is itself a no-op for a non-finite target),
and the receiver keeps its zero components — no infinity or NaN appears. -/
theorem zero_mag_rescale_noop (hyp : JsNum → JsNum → JsNum → JsNum)
    (h0 : hyp (.fin 0) (.fin 0) (.fin 0) = .fin 0) (m mn mx : JsNum) :
    Vec.maxMag hyp zeroV m = zeroV ∧ Vec.minMag hyp zeroV m = zeroV ∧
    Vec.constrainMag hyp zeroV mn mx = zeroV := by
  have hdiv : Vec.div zeroV (.fin 0) = zeroV := by
    simp [Vec.div, JsNum.eq]
  have hmult : ∀ k, Vec.mult zeroV k = zeroV := by
    intro k
    cases k <;> simp [Vec.mult, JsNum.isFinite, JsNum.mul_fin, zeroV]
  refine ⟨?_, ?_, ?_⟩
  · show (if (hyp zeroV.x zeroV.y zeroV.z).gt m then
        (zeroV.div (hyp zeroV.x zeroV.y zeroV.z)).mult m else zeroV) = zeroV
    rw [show hyp zeroV.x zeroV.y zeroV.z = .fin 0 from h0, hdiv]
    split <;> [exact hmult m; rfl]
  · show (if (hyp zeroV.x zeroV.y zeroV.z).lt m then
        (zeroV.div (hyp zeroV.x zeroV.y zeroV.z)).mult m else zeroV) = zeroV
    rw [show hyp zeroV.x zeroV.y zeroV.z = .fin 0 from h0, hdiv]
    split <;> [exact hmult m; rfl]
  · show (if (hyp zeroV.x zeroV.y zeroV.z).lt mn then
        (zeroV.div (hyp zeroV.x zeroV.y zeroV.z)).mult mn
      else if (hyp zeroV.x zeroV.y zeroV.z).gt mx then
        (zeroV.div (hyp zeroV.x zeroV.y zeroV.z)).mult mx
      else zeroV) = zeroV
    rw [show hyp zeroV.x zeroV.y zeroV.z = .fin 0 from h0, hdiv]
    split
    · exact hmult mn
    · split <;> [exact hmult mx; rfl]

/-- C1 counterexample: on the zero vector, the rescale-triggering calls
`minMag(5)`, `maxMag(-1)` and `constrainMag(2, 10)` leave the receiver at
(0, 0, 0) with every component finite, instead of producing the
division-by-zero infinity/NaN components the claim asserts. -/
theorem zero_mag_rescale_counterexample :
    Vec.minMag hypotModel zeroV (.fin 5) = zeroV ∧
    Vec.maxMag hypotModel zeroV (.fin (-1)) = zeroV ∧
    Vec.constrainMag hypotModel zeroV (.fin 2) (.fin 10) = zeroV ∧
    (Vec.minMag hypotModel zeroV (.fin 5)).x.isFinite = true ∧
    (Vec.minMag hypotModel zeroV (.fin 5)).y.isFinite = true ∧
    (Vec.minMag hypotModel zeroV (.fin 5)).z.isFinite = true := by
  have h0 : hypotModel (.fin 0) (.fin 0) (.fin 0) = .fin 0 :=
    hypotModel_eval 0 0 0 0 le_rfl (by norm_num)
  obtain ⟨hmax, hmin, hcon⟩ := zero_mag_rescale_noop hypotModel h0
    (.fin 5) (.fin 2) (.fin 10)
  obtain ⟨hmax2, -, -⟩ := zero_mag_rescale_noop hypotModel h0
    (.fin (-1)) (.fin 2) (.fin 10)
  refine ⟨hmin, hmax2, hcon, ?_, ?_, ?_⟩ <;> rw [hmin] <;> rfl

/-- C1 witness: the amended no-op behavior evaluated at the hypot model and
concrete rescale arguments. -/
theorem zero_mag_rescale_noop_witness :
    Vec.maxMag hypotModel zeroV (.fin (-3)) = zeroV ∧
    Vec.minMag hypotModel zeroV (.fin (-3)) = zeroV ∧
    Vec.constrainMag hypotModel zeroV (.fin 1) (.fin 4) = zeroV :=
  zero_mag_rescale_noop hypotModel
    (hypotModel_eval 0 0 0 0 le_rfl (by norm_num)) (.fin (-3)) (.fin 1) (.fin 4)

/-- C6: `normalize` of the zero vector yields (0, 0, 0) via the zero-magnitude
branch; for a finite vector whose exact Euclidean magnitude is a positive
rational, the magnitude after `normalize` equals exactly 1.  The abstract
hypot is constrained to agree with the exact Euclidean norm at the two points
where the code evaluates it. -/
theorem normalize_unit_mag :
    (∀ hyp : JsNum → JsNum → JsNum → JsNum,
      hyp (.fin 0) (.fin 0) (.fin 0) = .fin 0 →
      Vec.normalize hyp zeroV = zeroV) ∧
    (∀ (hyp : JsNum → JsNum → JsNum → JsNum) (v : Vec) (a1 a2 a3 r s : ℚ),
      v.x = .fin a1 → v.y = .fin a2 → v.z = .fin a3 →
      hyp (.fin a1) (.fin a2) (.fin a3) = .fin r →
      r * r = a1 * a1 + a2 * a2 + a3 * a3 → 0 < r →
      hyp (.fin (a1 / r)) (.fin (a2 / r)) (.fin (a3 / r)) = .fin s →
      s * s = a1 / r * (a1 / r) + a2 / r * (a2 / r) + a3 / r * (a3 / r) →
      0 ≤ s →
      Vec.mag hyp (Vec.normalize hyp v) = .fin 1) := by
  constructor
  · intro hyp h0
    simp [Vec.normalize, zeroV, h0, JsNum.eq, Vec.set]
  · intro hyp v a1 a2 a3 r s hx hy hz hm hr2 hrpos hs hs2 hsnn
    have hrne : r ≠ 0 := ne_of_gt hrpos
    have hnorm : Vec.normalize hyp v =
        ⟨.fin (a1 / r), .fin (a2 / r), .fin (a3 / r)⟩ := by
      simp [Vec.normalize, hx, hy, hz, hm, JsNum.eq, hrne, Vec.div,
        JsNum.isFinite, JsNum.div_fin _ _ hrne]
    rw [hnorm]
    simp only [Vec.mag]
    rw [hs]
    have hq : a1 / r * (a1 / r) + a2 / r * (a2 / r) + a3 / r * (a3 / r) =
        (a1 * a1 + a2 * a2 + a3 * a3) / (r * r) := by
      field_simp
    have hss : s * s = 1 := by
      rw [hs2, hq, ← hr2, div_self (mul_ne_zero hrne hrne)]
    rcases mul_self_eq_one_iff.mp hss with h1 | h1
    · rw [h1]
    · exfalso
      rw [h1] at hsnn
      linarith

/-- C6 witness: the zero vector stays (0, 0, 0), and the concrete vector
(3, 4, 0) has magnitude exactly 1 after `normalize` under the hypot model. -/
theorem normalize_unit_mag_witness :
    Vec.normalize hypotModel zeroV = zeroV ∧
    Vec.mag hypotModel (Vec.normalize hypotModel ⟨.fin 3, .fin 4, .fin 0⟩) =
      .fin 1 :=
  ⟨normalize_unit_mag.1 hypotModel (hypotModel_eval 0 0 0 0 le_rfl (by norm_num)),
   normalize_unit_mag.2 hypotModel ⟨.fin 3, .fin 4, .fin 0⟩ 3 4 0 5 1
     rfl rfl rfl
     (hypotModel_eval 3 4 0 5 (by norm_num) (by norm_num))
     (by norm_num) (by norm_num)
     (hypotModel_eval (3 / 5) (4 / 5) (0 / 5) 1 (by norm_num) (by norm_num))
     (by norm_num) (by norm_num)⟩

/-- C8: every function defined in both copies of the functional facade
returns identical results on all inputs (with the abstract library functions
and random samples held equal): the two copies have no behavioral
difference. -/
theorem facade_copies_agree :
    (∀ v a, VF.add v a = VF2.add v a) ∧
    (∀ v a, VF.sub v a = VF2.sub v a) ∧
    (∀ v f, VF.mult v f = VF2.mult v f) ∧
    (∀ v d, VF.div v d = VF2.div v d) ∧
    (∀ hyp v, VF.normalize hyp v = VF2.normalize hyp v) ∧
    (∀ hyp v m, VF.setMag hyp v m = VF2.setMag hyp v m) ∧
    (∀ hyp v w, VF.max hyp v w = VF2.max hyp v w) ∧
    (∀ hyp v w, VF.min hyp v w = VF2.min hyp v w) ∧
    (∀ v w, VF.equals v w = VF2.equals v w) ∧
    (∀ hyp v w, VF.dist hyp v w = VF2.dist hyp v w) ∧
    (∀ hyp v w, VF.distSq hyp v w = VF2.distSq hyp v w) ∧
    (∀ v w, VF.cross v w = VF2.cross v w) ∧
    (∀ v w, VF.dot v w = VF2.dot v w) ∧
    (∀ v, VF.toArray v = VF2.toArray v) ∧
    (∀ v vi vj vk, VF.changeOfBasis v vi vj vk = VF2.changeOfBasis v vi vj vk) ∧
    (∀ v w al, VF.lerp v w al = VF2.lerp v w al) ∧
    (∀ hyp acosF v w,
      VF.angleBetween hyp acosF v w = VF2.angleBetween hyp acosF v w) ∧
    (∀ cosF sinF v ang, VF.rotate cosF sinF v ang = VF2.rotate cosF sinF v ang) ∧
    (∀ cosF sinF v ang,
      VF.rotateX cosF sinF v ang = VF2.rotateX cosF sinF v ang) ∧
    (∀ cosF sinF v ang,
      VF.rotateY cosF sinF v ang = VF2.rotateY cosF sinF v ang) ∧
    (∀ cosF sinF ang, VF.fromAngle cosF sinF ang = VF2.fromAngle cosF sinF ang) ∧
    (∀ cosF sinF pol az,
      VF.fromAngles cosF sinF pol az = VF2.fromAngles cosF sinF pol az) ∧
    (∀ cosF sinF piV rnd,
      VF.random2D cosF sinF piV rnd = VF2.random2D cosF sinF piV rnd) ∧
    (∀ cosF sinF piV r1 r2,
      VF.random3D cosF sinF piV r1 r2 = VF2.random3D cosF sinF piV r1 r2) ∧
    (∀ hyp vertex v w,
      VF.scalarProyection hyp vertex v w = VF2.scalarProyection hyp vertex v w) :=
  ⟨fun v a => by cases a <;> rfl,
   fun v a => by cases a <;> rfl,
   fun _ _ => rfl, fun _ _ => rfl, fun _ _ => rfl, fun _ _ _ => rfl,
   fun _ _ _ => rfl, fun _ _ _ => rfl, fun _ _ => rfl, fun _ _ _ => rfl,
   fun _ _ _ => rfl, fun _ _ => rfl, fun _ _ => rfl, fun _ => rfl,
   fun _ _ _ _ => rfl, fun _ _ _ => rfl, fun _ _ _ _ => rfl,
   fun _ _ _ _ => rfl, fun _ _ _ _ => rfl, fun _ _ _ _ => rfl,
   fun _ _ _ => rfl, fun _ _ _ _ => rfl, fun _ _ _ _ => rfl,
   fun _ _ _ _ _ => rfl, fun _ _ _ _ => rfl⟩

/-- Negation of a finite number is exact rational negation. -/
theorem JsNum.neg_fin (q : ℚ) : (JsNum.fin q).neg = .fin (-q) := rfl

/-- Scaling by the precomputed reciprocal `1 / q` agrees exactly with dividing
by the nonzero finite `q`, for every number, finite or not. -/
theorem JsNum.mul_recip_eq_div (a : JsNum) (q : ℚ) (hq : q ≠ 0) :
    a.mul ((fin 1).div (fin q)) = a.div (fin q) := by
  rw [JsNum.div_fin 1 q hq]
  rcases hq.lt_or_lt with h | h
  · have h1 : 1 / q < 0 := div_neg_of_pos_of_neg one_pos h
    have h2 : ¬ (0 < 1 / q) := asymm h1
    have h3 : ¬ (q = 0) := hq
    cases a <;>
      simp [mul, div, h, h1, h2, h3, asymm h, mul_one_div, div_eq_mul_inv]
  · have h1 : 0 < 1 / q := by positivity
    have h2 : ¬ (1 / q < 0) := asymm h1
    have h3 : ¬ (q < 0) := asymm h
    cases a <;>
      simp [mul, div, h, h1, h2, h3, hq, mul_one_div, div_eq_mul_inv]

/-- The free `div` agrees with the entity `div` componentwise on every
divisor: the guards coincide, and on the scaling path multiplying by the
reciprocal is exact division. -/
theorem VFdiv_eq_entity (v : Vec) (d : JsNum) : VF.div v d = Vec.div v d := by
  cases d with
  | fin q =>
      by_cases hq : q = 0
      · subst hq
        simp [VF.div, Vec.div, JsNum.eq, JsNum.isFinite]
      · simp [VF.div, Vec.div, JsNum.eq, JsNum.isFinite, hq,
          JsNum.mul_recip_eq_div _ q hq]
  | posInf => simp [VF.div, Vec.div, JsNum.eq, JsNum.isFinite]
  | negInf => simp [VF.div, Vec.div, JsNum.eq, JsNum.isFinite]
  | nan => simp [VF.div, Vec.div, JsNum.eq, JsNum.isFinite]

/-- The clamp `Math.min(Math.max(alpha, 0), 1)` is the identity on a finite
alpha already in [0, 1]. -/
theorem JsNum.clamp01_fin (al : ℚ) (h0 : 0 ≤ al) (h1 : al ≤ 1) :
    JsNum.min (JsNum.max (fin al) (fin 0)) (fin 1) = fin al := by
  have hmax : JsNum.max (fin al) (fin 0) = fin al := by
    simp [max, lt, not_lt.mpr h0]
  rw [hmax]
  rcases lt_or_eq_of_le h1 with h | h
  · simp [min, lt, h]
  · simp [min, lt, h]

/-- C3 counterexample: the facade `lerp` does not clamp alpha.  At alpha = 2
on the segment from (0, 0, 0) to (1, 0, 0) the facade extrapolates to
(2, 0, 0) while the entity method on a fresh copy clamps to the endpoint
(1, 0, 0); the results differ. -/
theorem facade_lerp_unclamped_counterexample :
    VF.lerp zeroV ⟨.fin 1, .fin 0, .fin 0⟩ (.fin 2) = ⟨.fin 2, .fin 0, .fin 0⟩ ∧
    Vec.lerp (Vec.copy zeroV) ⟨.fin 1, .fin 0, .fin 0⟩ (.fin 2) =
      ⟨.fin 1, .fin 0, .fin 0⟩ ∧
    VF.lerp zeroV ⟨.fin 1, .fin 0, .fin 0⟩ (.fin 2) ≠
      Vec.lerp (Vec.copy zeroV) ⟨.fin 1, .fin 0, .fin 0⟩ (.fin 2) := by
  have h1 : VF.lerp zeroV ⟨.fin 1, .fin 0, .fin 0⟩ (.fin 2) =
      ⟨.fin 2, .fin 0, .fin 0⟩ := by
    simp only [VF.lerp, zeroV, JsNum.sub_fin, JsNum.mul_fin, JsNum.add_fin]
    norm_num
  have hcl : JsNum.min (JsNum.max (.fin 2) (.fin 0)) (.fin 1) = JsNum.fin 1 := by
    have hmax : JsNum.max (.fin 2) (.fin 0) = JsNum.fin 2 := by
      simp [JsNum.max, JsNum.lt]
    rw [hmax]
    simp [JsNum.min, JsNum.lt]
  have h2 : Vec.lerp (Vec.copy zeroV) ⟨.fin 1, .fin 0, .fin 0⟩ (.fin 2) =
      ⟨.fin 1, .fin 0, .fin 0⟩ := by
    simp only [Vec.lerp, Vec.copy, zeroV, hcl, JsNum.sub_fin, JsNum.mul_fin,
      JsNum.add_fin]
    norm_num
  refine ⟨h1, h2, ?_⟩
  rw [h1, h2]
  simp only [ne_eq, Vec.mk.injEq, JsNum.fin.injEq]
  norm_num

/-- C3 (amended): each facade free function returns the componentwise result
of the corresponding entity method applied to a fresh copy of the vector,
except for the gaps the code forces: the facade `lerp` omits the alpha clamp
(agreement requires alpha in [0, 1]), the facade rotations omit the `|| 0`
NaN coercion (agreement shown for finite components and finite cosine/sine
values, where the coercion is the identity), and the facade `angleBetween`
returns `undefined` where the entity returns 0 (agreement, up to the `some`
wrapper, requires a nonzero magnitude product); `normalize` agrees assuming
only that the abstract hypot returns 0 on no input other than the zero
vector. -/
theorem facade_matches_entity :
    (∀ v a, VF.add v a = Vec.add (Vec.copy v) a) ∧
    (∀ v a, VF.sub v a = Vec.sub (Vec.copy v) a) ∧
    (∀ v f, VF.mult v f = Vec.mult (Vec.copy v) f) ∧
    (∀ v d, VF.div v d = Vec.div (Vec.copy v) d) ∧
    (∀ (hyp : JsNum → JsNum → JsNum → JsNum) v,
      (∀ b1 b2 b3, hyp b1 b2 b3 = .fin 0 →
        b1 = .fin 0 ∧ b2 = .fin 0 ∧ b3 = .fin 0) →
      VF.normalize hyp v = Vec.normalize hyp (Vec.copy v)) ∧
    (∀ hyp v m, VF.setMag hyp v m = Vec.setMag hyp (Vec.copy v) m) ∧
    (∀ hyp v w, VF.max hyp v w = Vec.max hyp (Vec.copy v) w) ∧
    (∀ hyp v w, VF.min hyp v w = Vec.min hyp (Vec.copy v) w) ∧
    (∀ v w, VF.equals v w = Vec.equals (Vec.copy v) w) ∧
    (∀ hyp v w, VF.dist hyp v w = Vec.dist hyp (Vec.copy v) w) ∧
    (∀ hyp v w, VF.distSq hyp v w = Vec.distSq hyp (Vec.copy v) w) ∧
    (∀ v w, VF.cross v w = Vec.cross (Vec.copy v) w) ∧
    (∀ v w, VF.dot v w = Vec.dot (Vec.copy v) w) ∧
    (∀ v, VF.toArray v = Vec.toArray (Vec.copy v)) ∧
    (∀ v vi vj vk, VF.changeOfBasis v vi vj vk =
      Vec.changeOfBasis (Vec.copy v) vi vj vk) ∧
    (∀ v w (al : ℚ), 0 ≤ al → al ≤ 1 →
      VF.lerp v w (.fin al) = Vec.lerp (Vec.copy v) w (.fin al)) ∧
    (∀ hyp acosF v w,
      (Vec.mag hyp (Vec.copy v)).mul (Vec.mag hyp w) ≠ .fin 0 →
      VF.angleBetween hyp acosF v w =
        some (Vec.angleBetween hyp acosF (Vec.copy v) w)) ∧
    (∀ cosF sinF v ang (x y z c s : ℚ), v.x = .fin x → v.y = .fin y →
      v.z = .fin z → cosF ang = .fin c → sinF ang = .fin s →
      VF.rotate cosF sinF v ang = Vec.rotate cosF sinF (Vec.copy v) ang) ∧
    (∀ cosF sinF v ang (x y z c s : ℚ), v.x = .fin x → v.y = .fin y →
      v.z = .fin z → cosF ang = .fin c → sinF ang = .fin s →
      VF.rotateX cosF sinF v ang = Vec.rotateX cosF sinF (Vec.copy v) ang) ∧
    (∀ cosF sinF v ang (x y z c s : ℚ), v.x = .fin x → v.y = .fin y →
      v.z = .fin z → cosF ang = .fin c → sinF ang = .fin s →
      VF.rotateY cosF sinF v ang = Vec.rotateY cosF sinF (Vec.copy v) ang) := by
  refine ⟨fun v a => by cases a <;> rfl,
    fun v a => by cases a <;> rfl,
    fun v f => ?_,
    fun v d => by rw [VFdiv_eq_entity]; rfl,
    fun hyp v hzero => ?_,
    fun hyp v m => by simp only [VF.setMag, VFdiv_eq_entity]; rfl,
    fun _ _ _ => rfl, fun _ _ _ => rfl, fun _ _ => rfl, fun _ _ _ => rfl,
    fun _ _ _ => rfl, fun _ _ => rfl, fun _ _ => rfl, fun _ => rfl,
    fun _ _ _ _ => rfl,
    fun v w al h0 h1 => by
      simp only [VF.lerp, Vec.lerp, Vec.copy, JsNum.clamp01_fin al h0 h1],
    fun hyp acosF v w hne => ?_,
    fun cosF sinF v ang x y z c s hx hy hz hc hs => by
      simp only [VF.rotate, Vec.rotate, Vec.copy, hx, hy, hz, hc, hs,
        JsNum.neg_fin, JsNum.mul_fin, JsNum.add_fin, JsNum.orZero_fin],
    fun cosF sinF v ang x y z c s hx hy hz hc hs => by
      simp only [VF.rotateX, Vec.rotateX, Vec.copy, hx, hy, hz, hc, hs,
        JsNum.neg_fin, JsNum.mul_fin, JsNum.add_fin, JsNum.orZero_fin],
    fun cosF sinF v ang x y z c s hx hy hz hc hs => by
      simp only [VF.rotateY, Vec.rotateY, Vec.copy, hx, hy, hz, hc, hs,
        JsNum.neg_fin, JsNum.mul_fin, JsNum.add_fin, JsNum.orZero_fin]⟩
  · cases hf : f.isFinite <;> simp [VF.mult, Vec.mult, hf, Vec.copy]
  · cases hval : hyp v.x v.y v.z with
    | fin q =>
        by_cases hq0 : q = 0
        · subst hq0
          obtain ⟨e1, e2, e3⟩ := hzero v.x v.y v.z hval
          have hval0 := hval
          rw [e1, e2, e3] at hval0
          simp [VF.normalize, Vec.normalize, Vec.copy, hval, hval0, JsNum.eq,
            Vec.set, VF.div, e1, e2, e3]
        · simp [VF.normalize, Vec.normalize, Vec.copy, hval, JsNum.eq, hq0,
            VFdiv_eq_entity]
    | posInf =>
        simp [VF.normalize, Vec.normalize, Vec.copy, hval, JsNum.eq,
          VFdiv_eq_entity]
    | negInf =>
        simp [VF.normalize, Vec.normalize, Vec.copy, hval, JsNum.eq,
          VFdiv_eq_entity]
    | nan =>
        simp [VF.normalize, Vec.normalize, Vec.copy, hval, JsNum.eq,
          VFdiv_eq_entity]
  · have hne' : (hyp v.x v.y v.z).mul (hyp w.x w.y w.z) ≠ .fin 0 := hne
    have he : ((hyp v.x v.y v.z).mul (hyp w.x w.y w.z)).eq (.fin 0) = false := by
      rcases hb : ((hyp v.x v.y v.z).mul (hyp w.x w.y w.z)).eq (.fin 0) with _ | _
      · rfl
      · exact absurd ((JsNum.eq_fin_iff _ 0).mp hb) hne'
    simp only [VF.angleBetween, Vec.angleBetween, Vec.mag, Vec.copy] at he ⊢
    rw [he]
    simp

/-- Hypot stand-in for witnesses that need the abstract hypot to return 0 only
on the zero vector: it returns 0 exactly there and 1 everywhere else. -/
def hypotZeroOnly (a b c : JsNum) : JsNum :=
  if a = .fin 0 ∧ b = .fin 0 ∧ c = .fin 0 then .fin 0 else .fin 1

/-- C3 witness: the facade/entity agreement evaluated at concrete inputs for
a hypothesis-bearing selection of the operations (`mult`, `normalize`, `lerp`
with alpha 1/2, `angleBetween` on unit vectors, `rotate` at angle 0). -/
theorem facade_matches_entity_witness :
    VF.mult ⟨.fin 1, .fin 2, .fin 3⟩ (.fin 2) =
      Vec.mult (Vec.copy ⟨.fin 1, .fin 2, .fin 3⟩) (.fin 2) ∧
    VF.normalize hypotZeroOnly ⟨.fin 1, .fin 2, .fin 3⟩ =
      Vec.normalize hypotZeroOnly (Vec.copy ⟨.fin 1, .fin 2, .fin 3⟩) ∧
    VF.lerp ⟨.fin 1, .fin 2, .fin 3⟩ zeroV (.fin (1 / 2)) =
      Vec.lerp (Vec.copy ⟨.fin 1, .fin 2, .fin 3⟩) zeroV (.fin (1 / 2)) ∧
    VF.angleBetween hypotZeroOnly acosModel ⟨.fin 1, .fin 0, .fin 0⟩
        ⟨.fin 1, .fin 0, .fin 0⟩ =
      some (Vec.angleBetween hypotZeroOnly acosModel
        (Vec.copy ⟨.fin 1, .fin 0, .fin 0⟩) ⟨.fin 1, .fin 0, .fin 0⟩) ∧
    VF.rotate cosModel sinModel ⟨.fin 1, .fin 2, .fin 3⟩ (.fin 0) =
      Vec.rotate cosModel sinModel (Vec.copy ⟨.fin 1, .fin 2, .fin 3⟩)
        (.fin 0) := by
  obtain ⟨-, -, hmult, -, hnormalize, -, -, -, -, -, -, -, -, -, -, hlerp,
    hangle, hrot, -, -⟩ := facade_matches_entity
  have hz : ∀ b1 b2 b3, hypotZeroOnly b1 b2 b3 = .fin 0 →
      b1 = JsNum.fin 0 ∧ b2 = JsNum.fin 0 ∧ b3 = JsNum.fin 0 := by
    intro b1 b2 b3 h
    by_cases hc : b1 = JsNum.fin 0 ∧ b2 = JsNum.fin 0 ∧ b3 = JsNum.fin 0
    · exact hc
    · rw [hypotZeroOnly, if_neg hc] at h
      exact absurd (JsNum.fin.inj h) one_ne_zero
  have hne : (Vec.mag hypotZeroOnly (Vec.copy ⟨.fin 1, .fin 0, .fin 0⟩)).mul
      (Vec.mag hypotZeroOnly ⟨.fin 1, .fin 0, .fin 0⟩) ≠ .fin 0 := by
    have h1 : hypotZeroOnly (.fin 1) (.fin 0) (.fin 0) = .fin 1 := by
      rw [hypotZeroOnly, if_neg]
      rintro ⟨h, -⟩
      exact one_ne_zero (JsNum.fin.inj h)
    simp only [Vec.mag, Vec.copy, h1, JsNum.mul_fin, one_mul, ne_eq,
      JsNum.fin.injEq]
    exact one_ne_zero
  exact ⟨hmult _ _, hnormalize hypotZeroOnly _ hz,
    hlerp _ _ (1 / 2) (by norm_num) (by norm_num),
    hangle hypotZeroOnly acosModel _ _ hne,
    hrot cosModel sinModel _ (.fin 0) 1 2 3 1 0 rfl rfl rfl rfl rfl⟩


/-- Frame property of a pure allocation: all existing objects read back
unchanged and the returned reference is fresh. -/
theorem allocPure_frame (s : Store) (v : Vec) :
    (∀ r', r' < s.length → readRef (allocRef s v).1 r' = readRef s r') ∧
    s.length ≤ (allocRef s v).2 :=
  ⟨fun r' h => readRef_allocRef s v r' h, allocRef_fresh s v⟩

/-- Two stores agree below `n` when every reference under `n` reads the same
object in both. -/
def AgreeBelow (n : Nat) (s t : Store) : Prop :=
  ∀ r, r < n → readRef t r = readRef s r

/-- Agreement below `n` composes along successive store updates. -/
theorem AgreeBelow.trans {n : Nat} {s t u : Store} (h1 : AgreeBelow n s t)
    (h2 : AgreeBelow n t u) : AgreeBelow n s u :=
  fun r hr => (h2 r hr).trans (h1 r hr)

/-- Appending an allocation preserves all reads below the old length. -/
theorem agreeBelow_append (t : Store) (v : Vec) (n : Nat) (h : n ≤ t.length) :
    AgreeBelow n t (t ++ [v]) := by
  intro r hr
  simp [readRef, List.getD_eq_getElem?_getD, List.getElem?_append,
    Nat.lt_of_lt_of_le hr h]

/-- Writing at a reference at or past `n` preserves all reads below `n`. -/
theorem agreeBelow_write (t : Store) (r : Ref) (v : Vec) (n : Nat)
    (h : n ≤ r) : AgreeBelow n t (writeRef t r v) := by
  intro r' hr'
  exact readRef_writeRef_ne t r r' v (Nat.ne_of_lt (Nat.lt_of_lt_of_le hr' h))

/-- C7: in the store semantics, no facade function writes through any of its
input references — every object the caller already holds reads back unchanged
after the call — and each vector-returning facade function returns a freshly
allocated reference (an index at or beyond the original store size).
`setMag` and `scalarProyection` mutate only their freshly allocated
intermediates.  (The facade functions returning primitives — `equals`,
`dist`, `distSq`, `dot`, `toArray`, `angleBetween` — only read the store, and
the generators `fromAngle`, `fromAngles`, `random2D`, `random3D` take no
vector inputs.) -/
theorem facade_frame :
    (∀ s r a, (∀ r', r' < s.length →
        readRef (StoreVF.addS s r a).1 r' = readRef s r') ∧
      s.length ≤ (StoreVF.addS s r a).2) ∧
    (∀ s r a, (∀ r', r' < s.length →
        readRef (StoreVF.subS s r a).1 r' = readRef s r') ∧
      s.length ≤ (StoreVF.subS s r a).2) ∧
    (∀ s r f, (∀ r', r' < s.length →
        readRef (StoreVF.multS s r f).1 r' = readRef s r') ∧
      s.length ≤ (StoreVF.multS s r f).2) ∧
    (∀ s r d, (∀ r', r' < s.length →
        readRef (StoreVF.divS s r d).1 r' = readRef s r') ∧
      s.length ≤ (StoreVF.divS s r d).2) ∧
    (∀ hyp s r, (∀ r', r' < s.length →
        readRef (StoreVF.normalizeS hyp s r).1 r' = readRef s r') ∧
      s.length ≤ (StoreVF.normalizeS hyp s r).2) ∧
    (∀ hyp s r m, (∀ r', r' < s.length →
        readRef (StoreVF.setMagS hyp s r m).1 r' = readRef s r') ∧
      s.length ≤ (StoreVF.setMagS hyp s r m).2) ∧
    (∀ hyp s r1 r2, (∀ r', r' < s.length →
        readRef (StoreVF.maxS hyp s r1 r2).1 r' = readRef s r') ∧
      s.length ≤ (StoreVF.maxS hyp s r1 r2).2) ∧
    (∀ hyp s r1 r2, (∀ r', r' < s.length →
        readRef (StoreVF.minS hyp s r1 r2).1 r' = readRef s r') ∧
      s.length ≤ (StoreVF.minS hyp s r1 r2).2) ∧
    (∀ s r1 r2, (∀ r', r' < s.length →
        readRef (StoreVF.crossS s r1 r2).1 r' = readRef s r') ∧
      s.length ≤ (StoreVF.crossS s r1 r2).2) ∧
    (∀ s r ri rj rk, (∀ r', r' < s.length →
        readRef (StoreVF.changeOfBasisS s r ri rj rk).1 r' = readRef s r') ∧
      s.length ≤ (StoreVF.changeOfBasisS s r ri rj rk).2) ∧
    (∀ s r1 r2 al, (∀ r', r' < s.length →
        readRef (StoreVF.lerpS s r1 r2 al).1 r' = readRef s r') ∧
      s.length ≤ (StoreVF.lerpS s r1 r2 al).2) ∧
    (∀ cosF sinF s r ang, (∀ r', r' < s.length →
        readRef (StoreVF.rotateS cosF sinF s r ang).1 r' = readRef s r') ∧
      s.length ≤ (StoreVF.rotateS cosF sinF s r ang).2) ∧
    (∀ cosF sinF s r ang, (∀ r', r' < s.length →
        readRef (StoreVF.rotateXS cosF sinF s r ang).1 r' = readRef s r') ∧
      s.length ≤ (StoreVF.rotateXS cosF sinF s r ang).2) ∧
    (∀ cosF sinF s r ang, (∀ r', r' < s.length →
        readRef (StoreVF.rotateYS cosF sinF s r ang).1 r' = readRef s r') ∧
      s.length ≤ (StoreVF.rotateYS cosF sinF s r ang).2) ∧
    (∀ hyp s vtx vct ovc, (∀ r', r' < s.length →
        readRef (StoreVF.scalarProyectionS hyp s vtx vct ovc).1 r' =
          readRef s r') ∧
      s.length ≤ (StoreVF.scalarProyectionS hyp s vtx vct ovc).2) := by
  refine ⟨fun s r a => allocPure_frame s _,
    fun s r a => allocPure_frame s _,
    fun s r f => allocPure_frame s _,
    fun s r d => allocPure_frame s _,
    fun hyp s r => allocPure_frame s _,
    fun hyp s r m => ?_,
    fun hyp s r1 r2 => allocPure_frame s _,
    fun hyp s r1 r2 => allocPure_frame s _,
    fun s r1 r2 => allocPure_frame s _,
    fun s r ri rj rk => allocPure_frame s _,
    fun s r1 r2 al => allocPure_frame s _,
    fun cosF sinF s r ang => allocPure_frame s _,
    fun cosF sinF s r ang => allocPure_frame s _,
    fun cosF sinF s r ang => allocPure_frame s _,
    fun hyp s vtx vct ovc => ?_⟩
  · exact ⟨(agreeBelow_append s _ s.length (Nat.le_refl _)).trans
      (agreeBelow_write _ _ _ s.length (Nat.le_refl _)),
      Nat.le_refl _⟩
  · refine ⟨?_, ?_⟩
    · exact ((((agreeBelow_append s _ s.length (Nat.le_refl _)).trans
        (agreeBelow_append _ _ s.length (by
          simp only [allocRef, List.length_append, List.length_cons,
            List.length_nil]
          omega))).trans
        (agreeBelow_write _ _ _ s.length (Nat.le_refl _))).trans
        (agreeBelow_write _ _ _ s.length (Nat.le_refl _))).trans
        (agreeBelow_append _ _ s.length (by
          simp only [allocRef, writeRef, List.length_set, List.length_append,
            List.length_cons, List.length_nil]
          omega))
    · show s.length ≤ (writeRef (writeRef _ _ _) _ _).length
      simp only [allocRef, writeRef, List.length_set, List.length_append,
        List.length_cons, List.length_nil]
      omega

/-- C7 witness: the frame property evaluated on a concrete three-object store
for a plain allocating function (`add`), for `setMag`, and for
`scalarProyection`. -/
theorem facade_frame_witness :
    readRef (StoreVF.addS [⟨.fin 1, .fin 2, .fin 3⟩, zeroV,
        ⟨.fin 1, .fin 0, .fin 0⟩] 0 (.vec 1)).1 0 =
      readRef [⟨.fin 1, .fin 2, .fin 3⟩, zeroV, ⟨.fin 1, .fin 0, .fin 0⟩] 0 ∧
    3 ≤ (StoreVF.addS [⟨.fin 1, .fin 2, .fin 3⟩, zeroV,
        ⟨.fin 1, .fin 0, .fin 0⟩] 0 (.vec 1)).2 ∧
    readRef (StoreVF.setMagS hypotModel [⟨.fin 1, .fin 2, .fin 3⟩, zeroV,
        ⟨.fin 1, .fin 0, .fin 0⟩] 1 (.fin 2)).1 2 =
      readRef [⟨.fin 1, .fin 2, .fin 3⟩, zeroV, ⟨.fin 1, .fin 0, .fin 0⟩] 2 ∧
    readRef (StoreVF.scalarProyectionS hypotModel [⟨.fin 1, .fin 2, .fin 3⟩,
        zeroV, ⟨.fin 1, .fin 0, .fin 0⟩] 0 1 2).1 0 =
      readRef [⟨.fin 1, .fin 2, .fin 3⟩, zeroV, ⟨.fin 1, .fin 0, .fin 0⟩] 0 ∧
    3 ≤ (StoreVF.scalarProyectionS hypotModel [⟨.fin 1, .fin 2, .fin 3⟩,
        zeroV, ⟨.fin 1, .fin 0, .fin 0⟩] 0 1 2).2 := by
  obtain ⟨hadd, -, -, -, -, hsetMag, -, -, -, -, -, -, -, -, hsp⟩ :=
    facade_frame
  exact ⟨(hadd _ 0 (.vec 1)).1 0 (by simp),
    (hadd [⟨.fin 1, .fin 2, .fin 3⟩, zeroV, ⟨.fin 1, .fin 0, .fin 0⟩]
      0 (.vec 1)).2,
    (hsetMag hypotModel _ 1 (.fin 2)).1 2 (by simp),
    (hsp hypotModel _ 0 1 2).1 0 (by simp),
    (hsp hypotModel [⟨.fin 1, .fin 2, .fin 3⟩, zeroV, ⟨.fin 1, .fin 0, .fin 0⟩]
      0 1 2).2⟩
